import Mathlib

/-!
Verification development for the commit-audit tool: a shallow embedding of
`src/backend/services/suspiciousActivityDetector.js` (the suspicion scorer)
and `src/backend/services/analyzer.js` (the time-window resolver), together
with theorems about the specified properties.

Modelling conventions:
* JS `Date` instants are milliseconds since the Unix epoch, as `Int`.
  An invalid date (NaN time value) is `none : Option Int`; arithmetic on
  possibly-NaN numbers propagates `none`, and comparisons involving NaN
  are false, as in JS.
* The host local timezone is a fixed offset `tz` in minutes east of UTC
  (`local = utc + tz minutes`); the source operates in the host local
  calendar and its behaviour across a DST transition is unspecified, so a
  fixed offset is the timezone model used throughout.
* JS numbers on the scorer's arithmetic paths are exact: integers stay
  `Int`/`Nat`, quotients (`lines/minutes`, ratios, `0.7`) are `ℚ`.
* Strings use ASCII-level structural helpers (`jsToLower`, `jsTrim`,
  `jsSplit`) that model `toLowerCase`, `trim` and `split` on the inputs
  that occur here.
-/

namespace CommitAudit

/-- Per-commit diff statistics, the JS `commit.stats` object. -/
structure Stats where
  additions : Nat
  deletions : Nat
deriving Repr, DecidableEq

/-- A commit record as consumed by `SuspiciousActivityDetector.analyze`:
`commit.commit.author.date` is modelled by its parsed timestamp `date`
in milliseconds since the epoch, `commit.commit.message` by `message`
(an absent message is `""`), and the optional `commit.stats` object. -/
structure Commit where
  date : Int
  message : String
  stats : Option Stats
deriving Repr, DecidableEq

/-- The JS access `commit.stats?.additions || 0`. -/
def statsAdditions (c : Commit) : Nat :=
  (c.stats.map Stats.additions).getD 0

/-- The JS access `commit.stats?.deletions || 0`. -/
def statsDeletions (c : Commit) : Nat :=
  (c.stats.map Stats.deletions).getD 0

/-- One suspicion flag `{type, severity, message, points}`.  The
presentational `message` string (free-form, number formatting only)
is not modelled. -/
structure Flag where
  type : String
  severity : String
  points : Int
deriving Repr, DecidableEq

/-- The object returned by `analyze`.  The early return for an empty
commit list builds `{score: 0, flags: [], repoName}` with no
`commitCount`/`totalLines` properties, so those two fields are
`Option`s: `none` models the absent (`undefined`) property. -/
structure Report where
  repoName : String
  score : Int
  flags : List Flag
  commitCount : Option Nat
  totalLines : Option Nat
deriving Repr, DecidableEq

/-- The `this.thresholds` configuration object built in the detector's
constructor. -/
structure Thresholds where
  massActivityMinCommits : Nat
  massActivityMinLines : Nat
  massActivityMaxMinutes : ℚ
  massCommitLines : Nat
  unrealisticSpeed : ℚ
  rapidFireInterval : ℚ
  noCorrectionsRatio : ℚ
  genericMessages : List String

/-- The fixed threshold values from the detector's constructor. -/
def thresholds : Thresholds where
  massActivityMinCommits := 3
  massActivityMinLines := 200
  massActivityMaxMinutes := 10
  massCommitLines := 300
  unrealisticSpeed := 100
  rapidFireInterval := 120
  noCorrectionsRatio := 20
  genericMessages := ["update", "fix", "done", "asdf", "test", "commit", ".", "..", "..."]

/-- Insert a commit into a list that is already sorted by ascending `date`,
after every strictly earlier element and before every other one. -/
def insertByDate (c : Commit) : List Commit → List Commit
  | [] => [c]
  | d :: ds => if d.date < c.date then d :: insertByDate c ds else c :: d :: ds

/-- The stable ascending sort by `date`.  This computes exactly the list
produced by the source's
`[...commits].sort((a, b) => new Date(a.commit.author.date) - new Date(b.commit.author.date))`:
`Array.prototype.sort` with this comparator is a stable sort by ascending
timestamp, and stable insertion sort yields the same list. -/
def sortByDate : List Commit → List Commit
  | [] => []
  | c :: cs => insertByDate c (sortByDate cs)

/-- `new Date(sortedCommits[0].commit.author.date)` (0 is irrelevant:
only used under a nonempty guard). -/
def firstDate (l : List Commit) : Int :=
  (l.head?.map Commit.date).getD 0

/-- `new Date(sortedCommits[sortedCommits.length - 1].commit.author.date)`. -/
def lastDate (l : List Commit) : Int :=
  ((l.getLast?).map Commit.date).getD 0

/-- `sortedCommits.reduce((sum, c) => sum + (c.stats?.additions || 0), 0)`. -/
def totalAdditionsOf (l : List Commit) : Nat :=
  l.foldl (fun s c => s + statsAdditions c) 0

/-- `sortedCommits.reduce((sum, c) => sum + (c.stats?.deletions || 0), 0)`. -/
def totalDeletionsOf (l : List Commit) : Nat :=
  l.foldl (fun s c => s + statsDeletions c) 0

/-- ASCII lower-casing of one character, modelling
`String.prototype.toLowerCase` on the ASCII inputs occurring here. -/
def lowerChar (c : Char) : Char :=
  if 'A' ≤ c ∧ c ≤ 'Z' then Char.ofNat (c.toNat + 32) else c

/-- `s.toLowerCase()`. -/
def jsToLower (s : String) : String :=
  ⟨s.data.map lowerChar⟩

/-- JS whitespace test for `trim` (the characters relevant here). -/
def isSpaceChar (c : Char) : Bool :=
  c == ' ' || c == '\t' || c == '\n' || c == '\r'

/-- `s.trim()`. -/
def jsTrim (s : String) : String :=
  ⟨((s.data.dropWhile isSpaceChar).reverse.dropWhile isSpaceChar).reverse⟩

/-- The generic-message criterion on one commit:
`const msg = (commit.commit.message || '').trim().toLowerCase();`
`!msg || this.thresholds.genericMessages.includes(msg)`. -/
def isGenericMessage (msg : String) : Bool :=
  let m := jsToLower (jsTrim msg)
  m == "" || thresholds.genericMessages.contains m

/-- Check 0, `MASS_ACTIVITY`: at least 3 commits, at least 200 total lines,
first-to-last span at most 10 minutes.  Points scale with intensity,
`Math.round(50 * Math.min(2, totalLines / 300))`; severity is the source's
`totalLines >= 500 ? 'high' : totalLines >= 300 ? 'medium' : 'medium'`. -/
def massActivityFlags (sorted : List Commit) (totalLines : Nat) : List Flag :=
  if thresholds.massActivityMinCommits ≤ sorted.length then
    let durationMinutes : ℚ := ((lastDate sorted - firstDate sorted : Int) : ℚ) / 1000 / 60
    if thresholds.massActivityMinLines ≤ totalLines ∧
        durationMinutes ≤ thresholds.massActivityMaxMinutes then
      let severity := if 500 ≤ totalLines then "high"
        else if 300 ≤ totalLines then "medium" else "medium"
      let intensityMultiplier : ℚ := min 2 ((totalLines : ℚ) / 300)
      [⟨"MASS_ACTIVITY", severity, round ((50 : ℚ) * intensityMultiplier)⟩]
    else []
  else []

/-- Check 1, `MASS_COMMIT`: one flag per commit whose own diff exceeds
300 lines. -/
def massCommitFlags (sorted : List Commit) : List Flag :=
  sorted.filterMap fun c =>
    if thresholds.massCommitLines < statsAdditions c + statsDeletions c then
      some ⟨"MASS_COMMIT", "high", 20⟩
    else none

/-- Check 2, `SINGLE_COMMIT`: exactly one commit, with a `stats` object,
and more than 50 additions. -/
def singleCommitFlags (sorted : List Commit) : List Flag :=
  match sorted with
  | [c] =>
    match c.stats with
    | some st => if 50 < st.additions then [⟨"SINGLE_COMMIT", "high", 20⟩] else []
    | none => []
  | _ => []

/-- Check 3, `NO_CORRECTIONS` / `ONLY_ADDITIONS`. -/
def correctionsFlags (totalAdditions totalDeletions : Nat) : List Flag :=
  if 0 < totalDeletions then
    if thresholds.noCorrectionsRatio < (totalAdditions : ℚ) / (totalDeletions : ℚ) then
      [⟨"NO_CORRECTIONS", "low", 10⟩]
    else []
  else if 100 < totalAdditions then
    [⟨"ONLY_ADDITIONS", "low", 12⟩]
  else []

/-- The `UNREALISTIC_SPEED` for-loop over consecutive sorted pairs: the
quotient `linesDiff / timeDiff` is taken only when `timeDiff > 0`, and the
loop breaks at the first pair exceeding 100 lines per minute. -/
def speedScan : List Commit → List Flag
  | a :: b :: rest =>
    let timeDiff : ℚ := ((b.date - a.date : Int) : ℚ) / 1000 / 60
    if 0 < timeDiff then
      if thresholds.unrealisticSpeed < ((statsAdditions b + statsDeletions b : Nat) : ℚ) / timeDiff then
        [⟨"UNREALISTIC_SPEED", "high", 25⟩]
      else speedScan (b :: rest)
    else speedScan (b :: rest)
  | _ => []

/-- The `RAPID_FIRE` part of check 4: span strictly below 120 seconds,
at least 3 commits, and no `MASS_ACTIVITY` flag already pushed. -/
def rapidFireFlags (sorted : List Commit) (flagsSoFar : List Flag) : List Flag :=
  let durationSeconds : ℚ := ((lastDate sorted - firstDate sorted : Int) : ℚ) / 1000
  let alreadyFlaggedMassActivity := flagsSoFar.any fun f => f.type == "MASS_ACTIVITY"
  if durationSeconds < thresholds.rapidFireInterval ∧
      3 ≤ sorted.length ∧ alreadyFlaggedMassActivity = false then
    [⟨"RAPID_FIRE", "medium", 15⟩]
  else []

/-- Check 4 as a whole: both the rapid-fire test and the speed scan run
under the `sortedCommits.length >= 2` guard. -/
def rapidAndSpeedFlags (sorted : List Commit) (flagsSoFar : List Flag) : List Flag :=
  if 2 ≤ sorted.length then rapidFireFlags sorted flagsSoFar ++ speedScan sorted
  else []

/-- Check 5, `GENERIC_MESSAGES` / `MOSTLY_GENERIC`.  The source's literal
`0.7` is modelled by the rational 7/10. -/
def genericMessageFlags (sorted : List Commit) : List Flag :=
  let genericCount := (sorted.filter fun c => isGenericMessage c.message).length
  if 0 < genericCount ∧ genericCount = sorted.length then
    [⟨"GENERIC_MESSAGES", "low", 8⟩]
  else if (sorted.length : ℚ) * (7 / 10) ≤ (genericCount : ℚ) then
    [⟨"MOSTLY_GENERIC", "low", 5⟩]
  else []

/-- Total points of a flag list.  In the source every `flags.push` of a
flag with `points: p` is paired with `score += p`, so the running score
accumulator always equals this sum over the flags pushed so far. -/
def sumPoints (flags : List Flag) : Int :=
  (flags.map Flag.points).sum

/-- The body of `analyze` from the point where the sorted copy exists. -/
def analyzeSorted (sortedCommits : List Commit) (repoName : String) : Report :=
  let totalAdditions := totalAdditionsOf sortedCommits
  let totalDeletions := totalDeletionsOf sortedCommits
  let totalLines := totalAdditions + totalDeletions
  let flags1 := massActivityFlags sortedCommits totalLines
  let flags2 := flags1 ++ massCommitFlags sortedCommits
  let flags3 := flags2 ++ singleCommitFlags sortedCommits
  let flags4 := flags3 ++ correctionsFlags totalAdditions totalDeletions
  let flags5 := flags4 ++ rapidAndSpeedFlags sortedCommits flags4
  let flags := flags5 ++ genericMessageFlags sortedCommits
  { repoName := repoName
    score := min (sumPoints flags) 100
    flags := flags
    commitCount := some sortedCommits.length
    totalLines := some (totalAdditions + totalDeletions) }

/-- `SuspiciousActivityDetector.analyze(commits, repoName)`.  The empty
input short-circuits to `{score: 0, flags: [], repoName}`, an object
without `commitCount` or `totalLines` properties. -/
def analyze (commits : List Commit) (repoName : String) : Report :=
  if commits.length = 0 then
    { repoName := repoName, score := 0, flags := [], commitCount := none, totalLines := none }
  else
    analyzeSorted (sortByDate commits) repoName

/-- `analyze` with the heap made explicit: the store is a list of arrays
and the caller passes a reference (index).  `[...commits]` allocates a
fresh copy at the fresh index `heap.length`, and `.sort(...)` mutates the
array at that index in place; the caller's array at `ref` is never
written. -/
def analyzeHeap (heap : List (List Commit)) (ref : Nat) (repoName : String) :
    Report × List (List Commit) :=
  let commits := heap.getD ref []
  if commits.length = 0 then
    ({ repoName := repoName, score := 0, flags := [], commitCount := none, totalLines := none },
      heap)
  else
    let copyRef := heap.length
    let heap1 := heap ++ [commits]
    let heap2 := heap1.set copyRef (sortByDate (heap1.getD copyRef []))
    (analyzeSorted (heap2.getD copyRef []) repoName, heap2)

/-- The total changed lines of a commit list, as the scorer computes them
(summed over the sorted copy). -/
def totalLinesOf (commits : List Commit) : Nat :=
  totalAdditionsOf (sortByDate commits) + totalDeletionsOf (sortByDate commits)

/-- First-to-last span of the sorted commits, in seconds, as the scorer
computes it (`(lastTime - firstTime) / 1000`). -/
def spanSeconds (commits : List Commit) : ℚ :=
  ((lastDate (sortByDate commits) - firstDate (sortByDate commits) : Int) : ℚ) / 1000

/-- First-to-last span of the sorted commits, in minutes. -/
def spanMinutes (commits : List Commit) : ℚ :=
  ((lastDate (sortByDate commits) - firstDate (sortByDate commits) : Int) : ℚ) / 1000 / 60

/-- The condition on one consecutive sorted pair under which the speed scan
reports `UNREALISTIC_SPEED`: strictly positive time difference and more
than 100 lines per minute. -/
def speedPair (a b : Commit) : Prop :=
  0 < b.date - a.date ∧
    (100 : ℚ) < ((statsAdditions b + statsDeletions b : Nat) : ℚ) /
      (((b.date - a.date : Int) : ℚ) / 1000 / 60)

lemma length_insertByDate (c : Commit) (l : List Commit) :
    (insertByDate c l).length = l.length + 1 := by
  induction l with
  | nil => rfl
  | cons d ds ih =>
    simp only [insertByDate]
    split <;> simp [ih]

lemma length_sortByDate (l : List Commit) : (sortByDate l).length = l.length := by
  induction l with
  | nil => rfl
  | cons c cs ih => simp [sortByDate, length_insertByDate, ih]

lemma mem_massActivityFlags {s : List Commit} {t : Nat} {f : Flag}
    (h : f ∈ massActivityFlags s t) :
    f.type = "MASS_ACTIVITY" ∧ f.points = round ((50 : ℚ) * min 2 ((t : ℚ) / 300)) := by
  simp only [massActivityFlags] at h
  split at h
  · split at h
    · rcases List.mem_singleton.mp h with rfl
      exact ⟨rfl, rfl⟩
    · cases h
  · cases h

lemma mem_massCommitFlags {s : List Commit} {f : Flag} (h : f ∈ massCommitFlags s) :
    f = ⟨"MASS_COMMIT", "high", 20⟩ := by
  simp only [massCommitFlags] at h
  rcases List.mem_filterMap.mp h with ⟨c, _, hc⟩
  split at hc
  · exact (Option.some.inj hc).symm
  · cases hc

lemma mem_singleCommitFlags {s : List Commit} {f : Flag} (h : f ∈ singleCommitFlags s) :
    f = ⟨"SINGLE_COMMIT", "high", 20⟩ := by
  cases s with
  | nil => simp [singleCommitFlags] at h
  | cons c cs =>
    cases cs with
    | cons d ds => simp [singleCommitFlags] at h
    | nil =>
      obtain ⟨cd, cm, cst⟩ := c
      cases cst with
      | none => simp [singleCommitFlags] at h
      | some st =>
        simp only [singleCommitFlags] at h
        split at h
        · rcases List.mem_singleton.mp h with rfl; rfl
        · cases h

lemma mem_correctionsFlags {ta td : Nat} {f : Flag} (h : f ∈ correctionsFlags ta td) :
    f = ⟨"NO_CORRECTIONS", "low", 10⟩ ∨ f = ⟨"ONLY_ADDITIONS", "low", 12⟩ := by
  simp only [correctionsFlags] at h
  split at h
  · split at h
    · rcases List.mem_singleton.mp h with rfl; exact Or.inl rfl
    · cases h
  · split at h
    · rcases List.mem_singleton.mp h with rfl; exact Or.inr rfl
    · cases h

lemma mem_speedScan {l : List Commit} {f : Flag} (h : f ∈ speedScan l) :
    f = ⟨"UNREALISTIC_SPEED", "high", 25⟩ := by
  induction l with
  | nil => simp [speedScan] at h
  | cons a tail ih =>
    cases tail with
    | nil => simp [speedScan] at h
    | cons b rest =>
      simp only [speedScan] at h
      split at h
      · split at h
        · rcases List.mem_singleton.mp h with rfl; rfl
        · exact ih h
      · exact ih h

lemma mem_rapidFireFlags {s : List Commit} {fs : List Flag} {f : Flag}
    (h : f ∈ rapidFireFlags s fs) : f = ⟨"RAPID_FIRE", "medium", 15⟩ := by
  simp only [rapidFireFlags] at h
  split at h
  · rcases List.mem_singleton.mp h with rfl; rfl
  · cases h

lemma mem_rapidAndSpeedFlags {s : List Commit} {fs : List Flag} {f : Flag}
    (h : f ∈ rapidAndSpeedFlags s fs) :
    f = ⟨"RAPID_FIRE", "medium", 15⟩ ∨ f = ⟨"UNREALISTIC_SPEED", "high", 25⟩ := by
  simp only [rapidAndSpeedFlags] at h
  split at h
  · rcases List.mem_append.mp h with h' | h'
    · exact Or.inl (mem_rapidFireFlags h')
    · exact Or.inr (mem_speedScan h')
  · cases h

lemma mem_genericMessageFlags {s : List Commit} {f : Flag}
    (h : f ∈ genericMessageFlags s) :
    f = ⟨"GENERIC_MESSAGES", "low", 8⟩ ∨ f = ⟨"MOSTLY_GENERIC", "low", 5⟩ := by
  simp only [genericMessageFlags] at h
  split at h
  · rcases List.mem_singleton.mp h with rfl; exact Or.inl rfl
  · split at h
    · rcases List.mem_singleton.mp h with rfl; exact Or.inr rfl
    · cases h

lemma filter_type_eq_nil (T : String) (l : List Flag) (h : ∀ f ∈ l, f.type ≠ T) :
    (l.filter fun f => f.type == T) = [] :=
  List.filter_eq_nil_iff.mpr fun f hf => by simp [h f hf]

lemma filter_type_eq_self (T : String) (l : List Flag) (h : ∀ f ∈ l, f.type = T) :
    (l.filter fun f => f.type == T) = l :=
  List.filter_eq_self.mpr fun f hf => by simp [h f hf]

lemma analyzeSorted_flags (s : List Commit) (r : String) :
    (analyzeSorted s r).flags =
      massActivityFlags s (totalAdditionsOf s + totalDeletionsOf s) ++
        massCommitFlags s ++ singleCommitFlags s ++
        correctionsFlags (totalAdditionsOf s) (totalDeletionsOf s) ++
        rapidAndSpeedFlags s
          (massActivityFlags s (totalAdditionsOf s + totalDeletionsOf s) ++
            massCommitFlags s ++ singleCommitFlags s ++
            correctionsFlags (totalAdditionsOf s) (totalDeletionsOf s)) ++
        genericMessageFlags s := rfl

lemma analyzeSorted_score (s : List Commit) (r : String) :
    (analyzeSorted s r).score = min (sumPoints (analyzeSorted s r).flags) 100 := rfl

lemma filter_mass_analyzeSorted (s : List Commit) (r : String) :
    ((analyzeSorted s r).flags.filter fun f => f.type == "MASS_ACTIVITY") =
      massActivityFlags s (totalAdditionsOf s + totalDeletionsOf s) := by
  rw [analyzeSorted_flags]
  simp only [List.filter_append]
  rw [filter_type_eq_self "MASS_ACTIVITY" _ (fun f hf => (mem_massActivityFlags hf).1),
    filter_type_eq_nil "MASS_ACTIVITY" (massCommitFlags s)
      (fun f hf => by rw [mem_massCommitFlags hf]; decide),
    filter_type_eq_nil "MASS_ACTIVITY" (singleCommitFlags s)
      (fun f hf => by rw [mem_singleCommitFlags hf]; decide),
    filter_type_eq_nil "MASS_ACTIVITY" (correctionsFlags _ _)
      (fun f hf => by rcases mem_correctionsFlags hf with rfl | rfl <;> decide),
    filter_type_eq_nil "MASS_ACTIVITY" (rapidAndSpeedFlags _ _)
      (fun f hf => by rcases mem_rapidAndSpeedFlags hf with rfl | rfl <;> decide),
    filter_type_eq_nil "MASS_ACTIVITY" (genericMessageFlags s)
      (fun f hf => by rcases mem_genericMessageFlags hf with rfl | rfl <;> decide)]
  simp

lemma speedScan_of_short {l : List Commit} (h : l.length < 2) : speedScan l = [] := by
  cases l with
  | nil => rfl
  | cons a tail =>
    cases tail with
    | nil => rfl
    | cons b rest => simp only [List.length_cons] at h; omega

lemma filter_rapid_analyzeSorted (s : List Commit) (r : String) :
    ((analyzeSorted s r).flags.filter fun f => f.type == "RAPID_FIRE") =
      (if 2 ≤ s.length then
        rapidFireFlags s
          (massActivityFlags s (totalAdditionsOf s + totalDeletionsOf s) ++
            massCommitFlags s ++ singleCommitFlags s ++
            correctionsFlags (totalAdditionsOf s) (totalDeletionsOf s))
      else []) := by
  rw [analyzeSorted_flags]
  simp only [List.filter_append]
  rw [filter_type_eq_nil "RAPID_FIRE" (massActivityFlags _ _)
      (fun f hf => by rw [(mem_massActivityFlags hf).1]; decide),
    filter_type_eq_nil "RAPID_FIRE" (massCommitFlags s)
      (fun f hf => by rw [mem_massCommitFlags hf]; decide),
    filter_type_eq_nil "RAPID_FIRE" (singleCommitFlags s)
      (fun f hf => by rw [mem_singleCommitFlags hf]; decide),
    filter_type_eq_nil "RAPID_FIRE" (correctionsFlags _ _)
      (fun f hf => by rcases mem_correctionsFlags hf with rfl | rfl <;> decide),
    filter_type_eq_nil "RAPID_FIRE" (genericMessageFlags s)
      (fun f hf => by rcases mem_genericMessageFlags hf with rfl | rfl <;> decide)]
  simp only [List.nil_append, List.append_nil]
  unfold rapidAndSpeedFlags
  split
  · rw [List.filter_append,
      filter_type_eq_self "RAPID_FIRE" _ (fun f hf => by rw [mem_rapidFireFlags hf]),
      filter_type_eq_nil "RAPID_FIRE" (speedScan s)
        (fun f hf => by rw [mem_speedScan hf]; decide),
      List.append_nil]
  · rfl

lemma filter_unreal_analyzeSorted (s : List Commit) (r : String) :
    ((analyzeSorted s r).flags.filter fun f => f.type == "UNREALISTIC_SPEED") =
      speedScan s := by
  rw [analyzeSorted_flags]
  simp only [List.filter_append]
  rw [filter_type_eq_nil "UNREALISTIC_SPEED" (massActivityFlags _ _)
      (fun f hf => by rw [(mem_massActivityFlags hf).1]; decide),
    filter_type_eq_nil "UNREALISTIC_SPEED" (massCommitFlags s)
      (fun f hf => by rw [mem_massCommitFlags hf]; decide),
    filter_type_eq_nil "UNREALISTIC_SPEED" (singleCommitFlags s)
      (fun f hf => by rw [mem_singleCommitFlags hf]; decide),
    filter_type_eq_nil "UNREALISTIC_SPEED" (correctionsFlags _ _)
      (fun f hf => by rcases mem_correctionsFlags hf with rfl | rfl <;> decide),
    filter_type_eq_nil "UNREALISTIC_SPEED" (genericMessageFlags s)
      (fun f hf => by rcases mem_genericMessageFlags hf with rfl | rfl <;> decide)]
  simp only [List.nil_append, List.append_nil]
  unfold rapidAndSpeedFlags
  split
  · rw [List.filter_append,
      filter_type_eq_nil "UNREALISTIC_SPEED" (rapidFireFlags _ _)
        (fun f hf => by rw [mem_rapidFireFlags hf]; decide),
      filter_type_eq_self "UNREALISTIC_SPEED" _ (fun f hf => by rw [mem_speedScan hf]),
      List.nil_append]
  · rename_i hlen
    rw [speedScan_of_short (by omega)]
    rfl

lemma thresholds_massActivityMinCommits : thresholds.massActivityMinCommits = 3 := rfl

lemma thresholds_massActivityMinLines : thresholds.massActivityMinLines = 200 := rfl

lemma thresholds_massActivityMaxMinutes : thresholds.massActivityMaxMinutes = 10 := rfl

lemma thresholds_unrealisticSpeed : thresholds.unrealisticSpeed = 100 := rfl

lemma thresholds_rapidFireInterval : thresholds.rapidFireInterval = 120 := rfl

lemma massActivityFlags_eq (s : List Commit) (t : Nat) :
    massActivityFlags s t =
      if 3 ≤ s.length ∧ 200 ≤ t ∧
          ((lastDate s - firstDate s : Int) : ℚ) / 1000 / 60 ≤ 10 then
        [⟨"MASS_ACTIVITY", if 500 ≤ t then "high" else "medium",
          round ((50 : ℚ) * min 2 ((t : ℚ) / 300))⟩]
      else [] := by
  rw [massActivityFlags]
  rw [thresholds_massActivityMinCommits, thresholds_massActivityMinLines,
    thresholds_massActivityMaxMinutes]
  simp only [ite_self]
  split_ifs with h1 h2 h3 <;> first | rfl | tauto

lemma points_nonneg_analyzeSorted (s : List Commit) (r : String) :
    ∀ f ∈ (analyzeSorted s r).flags, 0 ≤ f.points := by
  intro f hf
  rw [analyzeSorted_flags] at hf
  simp only [List.mem_append] at hf
  rcases hf with ((((hf | hf) | hf) | hf) | hf) | hf
  · rw [(mem_massActivityFlags hf).2, round_eq]
    refine Int.floor_nonneg.mpr ?_
    have hmul : (0 : ℚ) ≤ 50 * min 2 (((totalAdditionsOf s + totalDeletionsOf s : Nat) : ℚ) / 300) := by
      refine mul_nonneg (by norm_num) (le_min (by norm_num) (by positivity))
    linarith
  · rw [mem_massCommitFlags hf]; decide
  · rw [mem_singleCommitFlags hf]; decide
  · rcases mem_correctionsFlags hf with rfl | rfl <;> decide
  · rcases mem_rapidAndSpeedFlags hf with rfl | rfl <;> decide
  · rcases mem_genericMessageFlags hf with rfl | rfl <;> decide

lemma any_mass_flags4 (s : List Commit) :
    (((massActivityFlags s (totalAdditionsOf s + totalDeletionsOf s) ++
          massCommitFlags s ++ singleCommitFlags s ++
          correctionsFlags (totalAdditionsOf s) (totalDeletionsOf s)).any
        fun f => f.type == "MASS_ACTIVITY") = false) ↔
      massActivityFlags s (totalAdditionsOf s + totalDeletionsOf s) = [] := by
  simp only [List.any_append, Bool.or_eq_false_iff]
  constructor
  · rintro ⟨⟨⟨hm, _⟩, _⟩, _⟩
    cases hma : massActivityFlags s (totalAdditionsOf s + totalDeletionsOf s) with
    | nil => rfl
    | cons fl rest =>
      exfalso
      have hmem : fl ∈ massActivityFlags s (totalAdditionsOf s + totalDeletionsOf s) := by
        rw [hma]; exact List.mem_cons_self _ _
      have htype := (mem_massActivityFlags hmem).1
      rw [hma] at hm
      simp [List.any_cons, htype] at hm
  · intro h
    refine ⟨⟨⟨by simp [h], ?_⟩, ?_⟩, ?_⟩
    · exact List.any_eq_false.mpr fun f hf => by rw [mem_massCommitFlags hf]; decide
    · exact List.any_eq_false.mpr fun f hf => by rw [mem_singleCommitFlags hf]; decide
    · exact List.any_eq_false.mpr fun f hf => by
        rcases mem_correctionsFlags hf with rfl | rfl <;> decide

lemma pairPos_iff (a b : Commit) :
    ((0 : ℚ) < ((b.date - a.date : Int) : ℚ) / 1000 / 60) ↔ 0 < b.date - a.date := by
  rw [div_div, div_pos_iff]
  constructor
  · rintro (⟨h, _⟩ | ⟨_, h⟩)
    · exact_mod_cast h
    · norm_num at h
  · intro h
    exact Or.inl ⟨by exact_mod_cast h, by norm_num⟩

lemma speedScan_ne_nil_iff (l : List Commit) :
    speedScan l ≠ [] ↔ ∃ p ∈ l.zip l.tail, speedPair p.1 p.2 := by
  induction l with
  | nil => simp [speedScan]
  | cons a tail ih =>
    cases tail with
    | nil => simp [speedScan]
    | cons b rest =>
      have hzip : (a :: b :: rest).zip (a :: b :: rest).tail =
          (a, b) :: (b :: rest).zip (b :: rest).tail := by
        simp [List.zip_cons_cons]
      rw [hzip, List.exists_mem_cons_iff]
      simp only [speedScan, thresholds_unrealisticSpeed]
      by_cases h1 : (0 : ℚ) < ((b.date - a.date : Int) : ℚ) / 1000 / 60
      · by_cases h2 : (100 : ℚ) < ((statsAdditions b + statsDeletions b : Nat) : ℚ) /
            (((b.date - a.date : Int) : ℚ) / 1000 / 60)
        · rw [if_pos h1, if_pos h2]
          constructor
          · intro _
            exact Or.inl ⟨(pairPos_iff a b).mp h1, h2⟩
          · intro _
            simp
        · rw [if_pos h1, if_neg h2, ih]
          have hnp : ¬ speedPair a b := fun hp => h2 hp.2
          tauto
      · rw [if_neg h1, ih]
        have hnp : ¬ speedPair a b := fun hp => h1 ((pairPos_iff a b).mpr hp.1)
        tauto

/-- C1: for every commit list and repoLabel, the report's score is the sum
of the points of all triggered flags capped at 100, hence between 0 and
100. -/
theorem score_capped_sum (commits : List Commit) (repoName : String) :
    (analyze commits repoName).score =
      min 100 (sumPoints (analyze commits repoName).flags) ∧
    0 ≤ (analyze commits repoName).score ∧ (analyze commits repoName).score ≤ 100 := by
  unfold analyze
  split
  · refine ⟨?_, le_refl 0, by norm_num⟩
    show (0 : Int) = min 100 (sumPoints [])
    norm_num [sumPoints]
  · have hnn : 0 ≤ sumPoints (analyzeSorted (sortByDate commits) repoName).flags := by
      rw [sumPoints]
      refine List.sum_nonneg fun x hx => ?_
      rcases List.mem_map.mp hx with ⟨f, hf, rfl⟩
      exact points_nonneg_analyzeSorted _ _ f hf
    refine ⟨?_, ?_, ?_⟩
    · rw [analyzeSorted_score, min_comm]
    · rw [analyzeSorted_score]
      exact le_min hnn (by norm_num)
    · rw [analyzeSorted_score]
      exact min_le_right _ _

/-- C2 counterexample: on an empty commit list the returned report does not
carry `commitCount = 0` and `totalLines = 0`; those properties are absent
(`undefined` in JS, `none` in the model), while the claim asserts they are
present with value 0. -/
theorem analyze_empty_counterexample :
    (analyze [] "repo").commitCount = none ∧ (analyze [] "repo").totalLines = none ∧
      (analyze [] "repo").commitCount ≠ some 0 ∧ (analyze [] "repo").totalLines ≠ some 0 := by
  refine ⟨rfl, rfl, ?_, ?_⟩ <;> decide

/-- C2 (amended): for every repoLabel, `analyze` on an empty commit list
short-circuits to a report with score 0, empty flags and the repoLabel,
with the `commitCount` and `totalLines` properties absent, and without
evaluating any rule. -/
theorem analyze_empty_report (repoName : String) :
    analyze [] repoName =
      { repoName := repoName, score := 0, flags := [],
        commitCount := none, totalLines := none } := rfl

/-- C8: exactly one MASS_ACTIVITY flag, worth
`round(50 * min(2, totalLines/300))` points, with severity high when
`totalLines >= 500` and medium otherwise, is produced iff the commit count
is at least 3, the total changed lines at least 200, and the sorted
first-to-last span at most 10 minutes; otherwise none is produced. -/
theorem mass_activity_rule (commits : List Commit) (repoName : String) :
    ((analyze commits repoName).flags.filter fun f => f.type == "MASS_ACTIVITY") =
      if 3 ≤ commits.length ∧ 200 ≤ totalLinesOf commits ∧ spanMinutes commits ≤ 10 then
        [⟨"MASS_ACTIVITY", if 500 ≤ totalLinesOf commits then "high" else "medium",
          round ((50 : ℚ) * min 2 ((totalLinesOf commits : ℚ) / 300))⟩]
      else [] := by
  unfold analyze
  split
  · rename_i h
    rw [List.filter_nil, if_neg]
    rintro ⟨h3, _, _⟩
    omega
  · rw [filter_mass_analyzeSorted, massActivityFlags_eq, length_sortByDate]
    rfl

/-- C7 (amended): exactly one RAPID_FIRE flag worth 15 points with medium
severity is produced iff the commit count is at least 3, the sorted
first-to-last span is strictly less than 120 seconds (the source compares
with `<`, not `<=`), and no MASS_ACTIVITY flag was produced in the same
pass. -/
theorem rapid_fire_rule (commits : List Commit) (repoName : String) :
    ((analyze commits repoName).flags.filter fun f => f.type == "RAPID_FIRE") =
      if 3 ≤ commits.length ∧ spanSeconds commits < 120 ∧
          ((analyze commits repoName).flags.filter fun f => f.type == "MASS_ACTIVITY") = []
      then [⟨"RAPID_FIRE", "medium", 15⟩] else [] := by
  unfold analyze
  split
  · rename_i h
    rw [List.filter_nil, List.filter_nil, if_neg]
    rintro ⟨h3, _, _⟩
    omega
  · rw [filter_rapid_analyzeSorted, filter_mass_analyzeSorted]
    rw [rapidFireFlags]
    simp only [thresholds_rapidFireInterval]
    have hiff := any_mass_flags4 (s := sortByDate commits)
    simp only [length_sortByDate] at hiff ⊢
    rcases Nat.lt_or_ge commits.length 2 with hn | hn
    · rw [if_neg (by omega), if_neg]
      rintro ⟨h3, _, _⟩
      omega
    · rw [if_pos hn]
      by_cases hc : ((lastDate (sortByDate commits) - firstDate (sortByDate commits) : Int) : ℚ) /
            1000 < 120 ∧ 3 ≤ commits.length ∧
          ((massActivityFlags (sortByDate commits)
              (totalAdditionsOf (sortByDate commits) + totalDeletionsOf (sortByDate commits)) ++
                massCommitFlags (sortByDate commits) ++ singleCommitFlags (sortByDate commits) ++
                correctionsFlags (totalAdditionsOf (sortByDate commits))
                  (totalDeletionsOf (sortByDate commits))).any
            fun f => f.type == "MASS_ACTIVITY") = false
      · rw [if_pos hc, if_pos ⟨hc.2.1, hc.1, hiff.mp hc.2.2⟩]
      · rw [if_neg hc, if_neg]
        rintro ⟨h3, hspan, hmass⟩
        exact hc ⟨hspan, h3, hiff.mpr hmass⟩

/-- C7 counterexample: three commits whose sorted span is exactly 120
seconds, with no MASS_ACTIVITY flag, satisfy the claimed trigger condition
(count at least 3, span at most 120 s, no MASS_ACTIVITY), yet the scorer
produces no RAPID_FIRE flag because the source compares the span strictly
(`durationSeconds < 120`). -/
theorem rapid_fire_span_boundary_counterexample :
    ((analyze [⟨0, "alpha", some ⟨1, 0⟩⟩, ⟨60000, "beta", some ⟨1, 0⟩⟩,
        ⟨120000, "gamma", some ⟨1, 0⟩⟩] "repo").flags.filter
      fun f => f.type == "RAPID_FIRE") = [] ∧
    spanSeconds [⟨0, "alpha", some ⟨1, 0⟩⟩, ⟨60000, "beta", some ⟨1, 0⟩⟩,
        ⟨120000, "gamma", some ⟨1, 0⟩⟩] = 120 ∧
    ((analyze [⟨0, "alpha", some ⟨1, 0⟩⟩, ⟨60000, "beta", some ⟨1, 0⟩⟩,
        ⟨120000, "gamma", some ⟨1, 0⟩⟩] "repo").flags.filter
      fun f => f.type == "MASS_ACTIVITY") = [] := by
  with_unfolding_all decide

/-- C10: an UNREALISTIC_SPEED flag is produced iff some consecutive sorted
pair has a strictly positive timestamp difference and exceeds 100 lines
per minute; in particular pairs with zero (or negative) time difference
are skipped, the quotient is only taken over a strictly positive time
difference, and a pair of commits with identical timestamps never
triggers the flag. -/
theorem unrealistic_speed_guard (commits : List Commit) (repoName : String) :
    (((analyze commits repoName).flags.filter fun f => f.type == "UNREALISTIC_SPEED") ≠ [] ↔
      ∃ p ∈ (sortByDate commits).zip (sortByDate commits).tail, speedPair p.1 p.2) := by
  unfold analyze
  split
  · rename_i h
    rw [List.length_eq_zero.mp h]
    simp [sortByDate]
  · rw [filter_unreal_analyzeSorted]
    exact speedScan_ne_nil_iff _

/-- C9: `analyze` never mutates its input.  With the heap made explicit,
the caller's array at `ref` is unchanged by the call (the source sorts a
fresh copy `[...commits]`), and the returned report is the pure function
of the input list. -/
theorem analyze_no_input_mutation (heap : List (List Commit)) (ref : Nat) (repoName : String)
    (h : ref < heap.length) :
    (analyzeHeap heap ref repoName).2.getD ref [] = heap.getD ref [] ∧
    (analyzeHeap heap ref repoName).1 = analyze (heap.getD ref []) repoName := by
  unfold analyzeHeap analyze
  by_cases hc : (heap.getD ref []).length = 0
  · simp only [if_pos hc]
    exact ⟨trivial, trivial⟩
  · simp only [if_neg hc]
    constructor
    · rw [List.getD_eq_getElem?_getD, List.getD_eq_getElem?_getD,
        List.getElem?_set_ne (Nat.ne_of_lt h).symm, List.getElem?_append_left h]
    · have h1 : (heap ++ [heap.getD ref []]).getD (heap).length [] = heap.getD ref [] := by
        rw [List.getD_eq_getElem?_getD, List.getElem?_concat_length]
        rfl
      have h2 : ((heap ++ [heap.getD ref []]).set heap.length
          (sortByDate ((heap ++ [heap.getD ref []]).getD heap.length []))).getD
            heap.length [] =
          sortByDate (heap.getD ref []) := by
        rw [h1, List.getD_eq_getElem?_getD, List.getElem?_set_self (by simp)]
        rfl
      rw [h2]

/-- Witness for C9 at a concrete one-element heap. -/
theorem analyze_no_input_mutation_witness :
    (0 : Nat) < 1 ∧
    ((analyzeHeap [[⟨0, "work", some ⟨10, 2⟩⟩]] 0 "repo").2.getD 0 [] =
        [[(⟨0, "work", some ⟨10, 2⟩⟩ : Commit)]].getD 0 [] ∧
      (analyzeHeap [[⟨0, "work", some ⟨10, 2⟩⟩]] 0 "repo").1 =
        analyze ([[(⟨0, "work", some ⟨10, 2⟩⟩ : Commit)]].getD 0 []) "repo") :=
  ⟨Nat.zero_lt_one, analyze_no_input_mutation [[⟨0, "work", some ⟨10, 2⟩⟩]] 0 "repo" (by decide)⟩

/-! ## Time-window resolver (`CommitAnalyzer.getLastTimeWindow`)

JS `Date` values carry a UTC millisecond time value; an invalid date is
`none`.  Local-calendar operations (`getDay`, `getDate`, `setHours`,
`setDate`) are interpreted under a fixed offset `tz` in minutes east of
UTC.  The ambient clock (`new Date()` with no argument) is modelled as a
stream `clock : Nat → Int` of readings; the source reads it exactly once,
consuming `clock 0`. -/

/-- Milliseconds per day. -/
def msPerDay : Int := 86400000

/-- A calendar date (proleptic Gregorian). -/
structure Civil where
  year : Int
  month : Int
  day : Int
deriving Repr, DecidableEq

/-- Days since 1970-01-01 of a calendar date (civil-to-days conversion). -/
def daysFromCivil (y m d : Int) : Int :=
  let y1 := y - (if m ≤ 2 then 1 else 0)
  let era := y1 / 400
  let yoe := y1 - era * 400
  let doy := (153 * (m + (if 2 < m then -3 else 9)) + 2) / 5 + d - 1
  let doe := yoe * 365 + yoe / 4 - yoe / 100 + doy
  era * 146097 + doe - 719468

/-- Calendar date of a day number (days-to-civil conversion). -/
def civilFromDays (z0 : Int) : Civil :=
  let z := z0 + 719468
  let era := z / 146097
  let doe := z - era * 146097
  let yoe := (doe - doe / 1460 + doe / 36524 - doe / 146096) / 365
  let y := yoe + era * 400
  let doy := doe - (365 * yoe + yoe / 4 - yoe / 100)
  let mp := (5 * doy + 2) / 153
  let d := doy - (153 * mp + 2) / 5 + 1
  let m := mp + (if mp < 10 then 3 else -9)
  ⟨y + (if m ≤ 2 then 1 else 0), m, d⟩

def isLeapYear (y : Int) : Bool :=
  (y % 4 == 0 && y % 100 != 0) || y % 400 == 0

def daysInMonth (y m : Int) : Int :=
  if m = 1 ∨ m = 3 ∨ m = 5 ∨ m = 7 ∨ m = 8 ∨ m = 10 ∨ m = 12 then 31
  else if m = 4 ∨ m = 6 ∨ m = 9 ∨ m = 11 then 30
  else if isLeapYear y then 29 else 28

/-- The numeric value of an ASCII digit character. -/
def digitVal (c : Char) : Int :=
  (c.toNat : Int) - 48

/-- The regex `^\d{4}-\d{2}-\d{2}$` from `getLastTimeWindow`. -/
def isDatePattern (s : String) : Bool :=
  match s.data with
  | [y1, y2, y3, y4, h1, m1, m2, h2, d1, d2] =>
    y1.isDigit && y2.isDigit && y3.isDigit && y4.isDigit && h1 == '-' &&
      m1.isDigit && m2.isDigit && h2 == '-' && d1.isDigit && d2.isDigit
  | _ => false

/-- `new Date("YYYY-MM-DD")`: a date-only ISO string parses as midnight
UTC of that calendar date; out-of-range fields give an invalid date. -/
def parseDate (s : String) : Option Int :=
  match s.data with
  | [y1, y2, y3, y4, h1, m1, m2, h2, d1, d2] =>
    if y1.isDigit && y2.isDigit && y3.isDigit && y4.isDigit && h1 == '-' &&
        m1.isDigit && m2.isDigit && h2 == '-' && d1.isDigit && d2.isDigit then
      let y := digitVal y1 * 1000 + digitVal y2 * 100 + digitVal y3 * 10 + digitVal y4
      let m := digitVal m1 * 10 + digitVal m2
      let d := digitVal d1 * 10 + digitVal d2
      if 1 ≤ m ∧ m ≤ 12 ∧ 1 ≤ d ∧ d ≤ daysInMonth y m then
        some (daysFromCivil y m d * msPerDay)
      else none
    else none
  | _ => none

/-- Split a character list at every occurrence of `sep`
(`String.prototype.split` with a one-character separator). -/
def splitOnChar (sep : Char) : List Char → List (List Char)
  | [] => [[]]
  | c :: rest =>
    let r := splitOnChar sep rest
    if c == sep then [] :: r
    else
      match r with
      | [] => [[c]]
      | g :: gs => (c :: g) :: gs

/-- `s.split(sep)`. -/
def jsSplit (s : String) (sep : Char) : List String :=
  (splitOnChar sep s.data).map fun l => ⟨l⟩

/-- JS `Number(s)` on the strings occurring here: `""` is 0, a string of
decimal digits is its value, anything else is NaN (`none`). -/
def jsNumber (s : String) : Option Int :=
  match s.data with
  | [] => some 0
  | cs =>
    if cs.all Char.isDigit then
      some (cs.foldl (fun a c => a * 10 + digitVal c) 0)
    else none

/-- `const [h, m] = timeStr.split(':').map(Number)`: the first two parts
(`m` is `undefined`, hence NaN in arithmetic, when there is no colon). -/
def parseTime (s : String) : Option Int × Option Int :=
  match (jsSplit s ':').map jsNumber with
  | [] => (none, none)
  | [h] => (h, none)
  | h :: m :: _ => (h, m)

/-- The `dayMap` object: day-name (already lower-cased) to JS day number. -/
def dayMap (s : String) : Option Int :=
  if s = "monday" then some 1
  else if s = "tuesday" then some 2
  else if s = "wednesday" then some 3
  else if s = "thursday" then some 4
  else if s = "friday" then some 5
  else if s = "saturday" then some 6
  else if s = "sunday" then some 0
  else none

/-- Addition on possibly-NaN JS numbers. -/
def jsAdd (a b : Option Int) : Option Int :=
  match a, b with
  | some x, some y => some (x + y)
  | _, _ => none

/-- Subtraction on possibly-NaN JS numbers. -/
def jsSub (a b : Option Int) : Option Int :=
  match a, b with
  | some x, some y => some (x - y)
  | _, _ => none

/-- `<` on possibly-NaN JS numbers and date values: false when either side
is NaN / an invalid date. -/
def jsLtB (a b : Option Int) : Bool :=
  match a, b with
  | some x, some y => decide (x < y)
  | _, _ => false

/-- `===` on possibly-NaN JS numbers: `NaN === NaN` is false. -/
def jsEqB (a b : Option Int) : Bool :=
  match a, b with
  | some x, some y => decide (x = y)
  | _, _ => false

/-- `(x + 7) % 7` on a possibly-NaN JS number.  On this code path the
operand is nonnegative whenever it is a number, so the JS remainder agrees
with the mathematical modulus. -/
def jsMod7 (a : Option Int) : Option Int :=
  a.map fun x => (x + 7) % 7

/-- `d.setDate(d.getDate() - k)` under a fixed timezone offset: shifts the
date value back exactly `k` days (local time-of-day preserved); NaN on an
invalid date or NaN `k`. -/
def jsSubDays (d : Option Int) (k : Option Int) : Option Int :=
  match d, k with
  | some u, some kv => some (u - kv * msPerDay)
  | _, _ => none

/-- `d.setHours(h, m, 0, 0)` under the fixed offset `tz` (minutes): keeps
the local calendar day and sets the local time-of-day to `h:m:00.000`. -/
def jsSetHours (d : Option Int) (tz : Int) (h m : Option Int) : Option Int :=
  match d, h, m with
  | some u, some hv, some mv =>
    some (((u + tz * 60000) / msPerDay) * msPerDay + hv * 3600000 + mv * 60000 - tz * 60000)
  | _, _, _ => none

/-- `d.getDay()` of a valid date under offset `tz` (0 = Sunday; the epoch
day 1970-01-01 was a Thursday, day 4). -/
def jsGetDay (u : Int) (tz : Int) : Int :=
  ((u + tz * 60000) / msPerDay + 4) % 7

/-- `d.getDate()` (local day of month; NaN on an invalid date). -/
def jsGetDate (d : Option Int) (tz : Int) : Option Int :=
  d.map fun u => (civilFromDays ((u + tz * 60000) / msPerDay)).day

/-- `d.getHours()` (local; NaN on an invalid date). -/
def jsGetHours (d : Option Int) (tz : Int) : Option Int :=
  d.map fun u => (u + tz * 60000) % msPerDay / 3600000

/-- `d.getMinutes()` (local; NaN on an invalid date). -/
def jsGetMinutes (d : Option Int) (tz : Int) : Option Int :=
  d.map fun u => (u + tz * 60000) % 3600000 / 60000

/-- The resolver's result `{since, until}`; either boundary may be an
invalid date. -/
structure Window where
  since : Option Int
  until' : Option Int
deriving Repr, DecidableEq

/-- `_getTimeWindowFromDates`: combine each parsed date with its
time-of-day via `setHours`; no use of the clock. -/
def getTimeWindowFromDates (startDateStr startTime endDateStr endTime : String)
    (tz : Int) : Window :=
  let startHour := (parseTime startTime).1
  let startMin := (parseTime startTime).2
  let endHour := (parseTime endTime).1
  let endMin := (parseTime endTime).2
  let startDate := jsSetHours (parseDate startDateStr) tz startHour startMin
  let endDate := jsSetHours (parseDate endDateStr) tz endHour endMin
  ⟨startDate, endDate⟩

/-- `_getTimeWindowFromDayNames`: find the most recent occurrence of
`endDay@endTime` not after `now`, then step back `dayDiff` days (7 for the
week-spanning same-day case with `endTime` earlier than `startTime`) and
set `startTime`.  The unused `daysBackToEnd += 7` inside the adjustment
branch, and the no-op `else if (dayDiff === 0) dayDiff = 0` branch, are
omitted.  Unknown day names make `dayMap` yield `undefined`, which
propagates as NaN without raising. -/
def getTimeWindowFromDayNames (clock : Nat → Int) (tz : Int)
    (startDay startTime endDay endTime : String) : Window :=
  let now := clock 0
  let startDayNumber := dayMap (jsToLower startDay)
  let endDayNumber := dayMap (jsToLower endDay)
  let startHour := (parseTime startTime).1
  let startMin := (parseTime startTime).2
  let endHour := (parseTime endTime).1
  let endMin := (parseTime endTime).2
  let currentDayNumber := jsGetDay now tz
  let daysBackToEnd := jsMod7 (jsSub (some currentDayNumber) endDayNumber)
  let endDate0 := jsSubDays (some now) daysBackToEnd
  let endDate1 := jsSetHours endDate0 tz endHour endMin
  let endDate := if jsLtB (some now) endDate1 then jsSubDays endDate1 (some 7) else endDate1
  let dayDiff0 := jsMod7 (jsSub endDayNumber startDayNumber)
  let dayDiff :=
    if jsEqB dayDiff0 (some 0) &&
        (jsLtB endHour startHour || (jsEqB endHour startHour && jsLtB endMin startMin)) then
      some 7
    else dayDiff0
  let startDate0 := jsSubDays endDate dayDiff
  let startDate := jsSetHours startDate0 tz startHour startMin
  ⟨startDate, endDate⟩

/-- `getLastTimeWindow(startDayOrDate, startTime, endDayOrDate, endTime)`:
dispatch on the date pattern; mixing a date with a day name throws. -/
def getLastTimeWindow (clock : Nat → Int) (tz : Int)
    (startDayOrDate startTime endDayOrDate endTime : String) : Except String Window :=
  let isStartDate := isDatePattern startDayOrDate
  let isEndDate := isDatePattern endDayOrDate
  if isStartDate && isEndDate then
    .ok (getTimeWindowFromDates startDayOrDate startTime endDayOrDate endTime tz)
  else if !isStartDate && !isEndDate then
    .ok (getTimeWindowFromDayNames clock tz startDayOrDate startTime endDayOrDate endTime)
  else
    .error "Time window config must use either both day names or both specific dates, not mixed"

/-- The `since` boundary of a resolver result (NaN when the call threw). -/
def winSince : Except String Window → Option Int
  | .ok w => w.since
  | .error _ => none

/-- The `until` boundary of a resolver result (NaN when the call threw). -/
def winUntil : Except String Window → Option Int
  | .ok w => w.until'
  | .error _ => none

lemma jsSub_none_right (a : Option Int) : jsSub a none = none := by
  cases a <;> rfl

lemma jsSub_none_left (a : Option Int) : jsSub none a = none := by
  cases a <;> rfl

lemma jsMod7_none : jsMod7 none = none := rfl

lemma jsSubDays_none_right (d : Option Int) : jsSubDays d none = none := by
  cases d <;> rfl

lemma jsSubDays_none_left (k : Option Int) : jsSubDays none k = none := by
  cases k <;> rfl

lemma jsSetHours_none_date (tz : Int) (h m : Option Int) :
    jsSetHours none tz h m = none := by
  cases h <;> cases m <;> rfl

lemma jsEqB_none_left (b : Option Int) : jsEqB none b = false := by
  cases b <;> rfl

lemma jsLtB_none_right (a : Option Int) : jsLtB a none = false := by
  cases a <;> rfl

lemma ediv_mul_add_eq (D c k : Int) (hk : 0 < k) (h0 : 0 ≤ c) (h1 : c < k) :
    (D * k + c) / k = D := by
  rw [add_comm, mul_comm, Int.add_mul_ediv_left c D (ne_of_gt hk),
    Int.ediv_eq_zero_of_lt h0 h1, zero_add]

lemma emod_mul_add_eq (D c k : Int) (h0 : 0 ≤ c) (h1 : c < k) :
    (D * k + c) % k = c := by
  rw [add_comm, mul_comm, Int.add_mul_emod_self_left, Int.emod_eq_of_lt h0 h1]

/-- `getDate` after `setHours(h, m, 0, 0)` on a valid date: the local
calendar day is unchanged (the time-of-day stays within the day). -/
lemma jsGetDate_setHours (u tz h m : Int)
    (hm0 : 0 ≤ h * 3600000 + m * 60000) (hm1 : h * 3600000 + m * 60000 < 86400000) :
    jsGetDate (jsSetHours (some u) tz (some h) (some m)) tz =
      some (civilFromDays ((u + tz * 60000) / msPerDay)).day := by
  simp only [jsSetHours, jsGetDate, Option.map_some']
  have he : (u + tz * 60000) / msPerDay * msPerDay + h * 3600000 + m * 60000 - tz * 60000 +
      tz * 60000 = (u + tz * 60000) / msPerDay * msPerDay + (h * 3600000 + m * 60000) := by
    ring
  rw [he, msPerDay, ediv_mul_add_eq _ _ _ (by norm_num) hm0 hm1]

/-- `getHours` after `setHours(h, m, 0, 0)` on a valid date. -/
lemma jsGetHours_setHours (u tz h m : Int)
    (hm0 : 0 ≤ h * 3600000 + m * 60000) (hm1 : h * 3600000 + m * 60000 < 86400000) :
    jsGetHours (jsSetHours (some u) tz (some h) (some m)) tz =
      some ((h * 3600000 + m * 60000) / 3600000) := by
  simp only [jsSetHours, jsGetHours, Option.map_some']
  have he : (u + tz * 60000) / msPerDay * msPerDay + h * 3600000 + m * 60000 - tz * 60000 +
      tz * 60000 = (u + tz * 60000) / msPerDay * msPerDay + (h * 3600000 + m * 60000) := by
    ring
  rw [he, msPerDay, emod_mul_add_eq _ _ _ hm0 hm1]

/-- `getMinutes` after `setHours(h, m, 0, 0)` on a valid date. -/
lemma jsGetMinutes_setHours (u tz h m : Int) :
    jsGetMinutes (jsSetHours (some u) tz (some h) (some m)) tz =
      some ((h * 3600000 + m * 60000) % 3600000 / 60000) := by
  simp only [jsSetHours, jsGetMinutes, Option.map_some']
  have he : (u + tz * 60000) / msPerDay * msPerDay + h * 3600000 + m * 60000 - tz * 60000 +
      tz * 60000 = h * 3600000 + m * 60000 + 3600000 * ((u + tz * 60000) / msPerDay * 24) := by
    rw [msPerDay]; ring
  rw [he, Int.add_mul_emod_self_left]

/-- C3: the resolver is a pure function of the window specification, the
(single) clock reading it takes, and the fixed host timezone offset: two
calls whose clock streams agree on the one reading the source performs
(`const now = new Date()`) return identical windows.  A later drift of the
ambient clock (readings 1, 2, ...) cannot affect the result. -/
theorem resolver_pure_in_now (c1 c2 : Nat → Int) (tz : Int)
    (startDayOrDate startTime endDayOrDate endTime : String) (h : c1 0 = c2 0) :
    getLastTimeWindow c1 tz startDayOrDate startTime endDayOrDate endTime =
      getLastTimeWindow c2 tz startDayOrDate startTime endDayOrDate endTime := by
  simp only [getLastTimeWindow, getTimeWindowFromDayNames, h]

/-- Witness for C3: two clock streams that differ everywhere except at the
single reading the resolver performs. -/
theorem resolver_pure_in_now_witness :
    (fun _ : Nat => (5 : Int)) 0 = (fun n : Nat => if n = 0 then (5 : Int) else 99) 0 ∧
    getLastTimeWindow (fun _ => 5) 0 "Monday" "10:00" "Friday" "17:00" =
      getLastTimeWindow (fun n => if n = 0 then 5 else 99) 0 "Monday" "10:00" "Friday" "17:00" :=
  ⟨rfl, resolver_pure_in_now (fun _ => 5) (fun n => if n = 0 then 5 else 99) 0
    "Monday" "10:00" "Friday" "17:00" rfl⟩

/-- C4 counterexample: an unknown day name does not raise: the call
returns `Ok` (the `dayMap` lookup yields `undefined`, which propagates as
NaN into the window) instead of failing with an InvalidInput error. -/
theorem unknown_day_counterexample :
    getLastTimeWindow (fun _ => 0) 0 "Funday" "10:00" "Monday" "17:00" =
      .ok ⟨none, some (-198000000)⟩ := by
  with_unfolding_all rfl

/-- C4 (amended): for every recurring-window specification in which at
least one day-name boundary is unrecognized, the resolver does not fail:
it returns a window whose `since` is an invalid instant (NaN), the
undefined day number having propagated through the arithmetic. -/
theorem unknown_day_rule (clock : Nat → Int) (tz : Int)
    (startDay startTime endDay endTime : String)
    (hsd : isDatePattern startDay = false) (hed : isDatePattern endDay = false)
    (hunk : dayMap (jsToLower startDay) = none ∨ dayMap (jsToLower endDay) = none) :
    ∃ w, getLastTimeWindow clock tz startDay startTime endDay endTime = .ok w ∧
      w.since = none := by
  refine ⟨getTimeWindowFromDayNames clock tz startDay startTime endDay endTime,
    by simp [getLastTimeWindow, hsd, hed], ?_⟩
  simp only [getTimeWindowFromDayNames]
  rcases hunk with hu | hu <;>
    simp [hu, jsSub_none_right, jsSub_none_left, jsMod7_none, jsSubDays_none_right,
      jsSubDays_none_left, jsSetHours_none_date, jsEqB_none_left, jsLtB_none_right]

/-- Witness for C4 (amended) at the concrete unknown day name "Funday". -/
theorem unknown_day_rule_witness :
    isDatePattern "Funday" = false ∧ isDatePattern "Monday" = false ∧
    dayMap (jsToLower "Funday") = none ∧
    ∃ w, getLastTimeWindow (fun _ => 0) 0 "Funday" "10:00" "Monday" "17:00" = .ok w ∧
      w.since = none :=
  ⟨by decide, by decide, by decide,
    unknown_day_rule (fun _ => 0) 0 "Funday" "10:00" "Monday" "17:00"
      (by decide) (by decide) (Or.inl (by decide))⟩

/-- C5 counterexample: in a host timezone west of UTC (offset -60 minutes),
resolving startDate "2026-02-16" with startTime "10:30" yields a `since`
whose local calendar day is 15, not 16: `new Date("YYYY-MM-DD")` parses as
midnight UTC, which is the previous local day, and `setHours` keeps that
local day. -/
theorem date_window_negative_offset_counterexample :
    jsGetDate (winSince (getLastTimeWindow (fun _ => 0) (-60)
      "2026-02-16" "10:30" "2026-02-20" "17:45")) (-60) = some 15 := by
  with_unfolding_all decide

/-- C5 (amended): the date string parses as midnight UTC and the
time-of-day is set in local time, so the claimed local fields hold exactly
when the host timezone offset is nonnegative (at or east of UTC): then
`since` has local day 16, hour 10 and minute 30, and `until` has local
day 20, hour 17 and minute 45, for every reference instant. -/
theorem date_window_local_fields (clock : Nat → Int) (tz : Int)
    (h0 : 0 ≤ tz) (h1 : tz < 1440) :
    jsGetDate (winSince (getLastTimeWindow clock tz
        "2026-02-16" "10:30" "2026-02-20" "17:45")) tz = some 16 ∧
    jsGetHours (winSince (getLastTimeWindow clock tz
        "2026-02-16" "10:30" "2026-02-20" "17:45")) tz = some 10 ∧
    jsGetMinutes (winSince (getLastTimeWindow clock tz
        "2026-02-16" "10:30" "2026-02-20" "17:45")) tz = some 30 ∧
    jsGetDate (winUntil (getLastTimeWindow clock tz
        "2026-02-16" "10:30" "2026-02-20" "17:45")) tz = some 20 ∧
    jsGetHours (winUntil (getLastTimeWindow clock tz
        "2026-02-16" "10:30" "2026-02-20" "17:45")) tz = some 17 ∧
    jsGetMinutes (winUntil (getLastTimeWindow clock tz
        "2026-02-16" "10:30" "2026-02-20" "17:45")) tz = some 45 := by
  have htz0 : (0 : Int) ≤ tz * 60000 := mul_nonneg h0 (by norm_num)
  have htz1 : tz * 60000 < 86400000 := by
    have := mul_lt_mul_of_pos_right h1 (show (0 : Int) < 60000 by norm_num)
    linarith
  have hds : isDatePattern "2026-02-16" = true := by decide
  have hde : isDatePattern "2026-02-20" = true := by decide
  have hpds : parseDate "2026-02-16" = some (20500 * 86400000) := by decide
  have hpde : parseDate "2026-02-20" = some (20504 * 86400000) := by decide
  have hpts : parseTime "10:30" = (some 10, some 30) := by decide
  have hpte : parseTime "17:45" = (some 17, some 45) := by decide
  have hcall : getLastTimeWindow clock tz "2026-02-16" "10:30" "2026-02-20" "17:45" =
      .ok ⟨jsSetHours (some (20500 * 86400000)) tz (some 10) (some 30),
        jsSetHours (some (20504 * 86400000)) tz (some 17) (some 45)⟩ := by
    simp [getLastTimeWindow, hds, hde, getTimeWindowFromDates, hpds, hpde, hpts, hpte]
  have hday : ∀ D : Int, (D * 86400000 + tz * 60000) / msPerDay = D := fun D => by
    rw [msPerDay, ediv_mul_add_eq _ _ _ (by norm_num) htz0 htz1]
  rw [hcall]
  simp only [winSince, winUntil]
  refine ⟨?_, ?_, ?_, ?_, ?_, ?_⟩
  · rw [jsGetDate_setHours _ _ _ _ (by norm_num) (by norm_num), hday]
    decide
  · rw [jsGetHours_setHours _ _ _ _ (by norm_num) (by norm_num)]
    decide
  · rw [jsGetMinutes_setHours]
    decide
  · rw [jsGetDate_setHours _ _ _ _ (by norm_num) (by norm_num), hday]
    decide
  · rw [jsGetHours_setHours _ _ _ _ (by norm_num) (by norm_num)]
    decide
  · rw [jsGetMinutes_setHours]
    decide

/-- Witness for C5 (amended) at offset 0 (UTC). -/
theorem date_window_local_fields_witness :
    (0 : Int) ≤ 0 ∧ (0 : Int) < 1440 ∧
    (jsGetDate (winSince (getLastTimeWindow (fun _ => 0) 0
        "2026-02-16" "10:30" "2026-02-20" "17:45")) 0 = some 16 ∧
      jsGetHours (winSince (getLastTimeWindow (fun _ => 0) 0
        "2026-02-16" "10:30" "2026-02-20" "17:45")) 0 = some 10 ∧
      jsGetMinutes (winSince (getLastTimeWindow (fun _ => 0) 0
        "2026-02-16" "10:30" "2026-02-20" "17:45")) 0 = some 30 ∧
      jsGetDate (winUntil (getLastTimeWindow (fun _ => 0) 0
        "2026-02-16" "10:30" "2026-02-20" "17:45")) 0 = some 20 ∧
      jsGetHours (winUntil (getLastTimeWindow (fun _ => 0) 0
        "2026-02-16" "10:30" "2026-02-20" "17:45")) 0 = some 17 ∧
      jsGetMinutes (winUntil (getLastTimeWindow (fun _ => 0) 0
        "2026-02-16" "10:30" "2026-02-20" "17:45")) 0 = some 45) :=
  ⟨le_refl 0, by norm_num, date_window_local_fields (fun _ => 0) 0 (le_refl 0) (by norm_num)⟩

lemma jsSub_some (x y : Int) : jsSub (some x) (some y) = some (x - y) := rfl

lemma jsSubDays_some (u kv : Int) :
    jsSubDays (some u) (some kv) = some (u - kv * msPerDay) := rfl

lemma jsSetHours_some (u tz hv mv : Int) :
    jsSetHours (some u) tz (some hv) (some mv) =
      some ((u + tz * 60000) / msPerDay * msPerDay + hv * 3600000 + mv * 60000 - tz * 60000) :=
  rfl

/-- The day-names resolver on a week-spanning specification (equal valid
day names, end time lexicographically earlier than start time): `until` is
some day at the end time-of-day, and `since` is exactly 7 days earlier at
the start time-of-day. -/
lemma dayNames_week_spanning (clock : Nat → Int) (tz : Int)
    (startDay startTime endDay endTime : String) (n sh sm eh em : Int)
    (hs : dayMap (jsToLower startDay) = some n) (he : dayMap (jsToLower endDay) = some n)
    (hst : parseTime startTime = (some sh, some sm))
    (het : parseTime endTime = (some eh, some em))
    (hem0 : 0 ≤ eh * 3600000 + em * 60000)
    (hem1 : eh * 3600000 + em * 60000 < 86400000)
    (hlexB : (jsLtB (some eh) (some sh) ||
      (jsEqB (some eh) (some sh) && jsLtB (some em) (some sm))) = true) :
    ∃ Q : Int,
      (getTimeWindowFromDayNames clock tz startDay startTime endDay endTime).until' =
        some (Q * msPerDay + (eh * 3600000 + em * 60000) - tz * 60000) ∧
      (getTimeWindowFromDayNames clock tz startDay startTime endDay endTime).since =
        some ((Q - 7) * msPerDay + (sh * 3600000 + sm * 60000) - tz * 60000) := by
  simp only [getTimeWindowFromDayNames, hs, he, hst, het]
  simp only [jsSub_some, jsMod7, Option.map_some']
  have hdd : n - n + 7 = 7 := by ring
  rw [hdd]
  have h70 : (7 : Int) % 7 = 0 := by decide
  rw [h70]
  have heqb : jsEqB (some 0) (some 0) = true := by decide
  rw [heqb, hlexB]
  simp only [Bool.true_and, if_true]
  simp only [jsSubDays_some, jsSetHours_some]
  split
  · refine ⟨(clock 0 - (jsGetDay (clock 0) tz - n + 7) % 7 * msPerDay + tz * 60000) / msPerDay - 7,
      ?_, ?_⟩
    · congr 1
      ring
    · rw [jsSubDays_some, jsSetHours_some]
      congr 1
      have he1 : (clock 0 - (jsGetDay (clock 0) tz - n + 7) % 7 * msPerDay + tz * 60000) /
          msPerDay * msPerDay + eh * 3600000 + em * 60000 - tz * 60000 - 7 * msPerDay -
          7 * msPerDay + tz * 60000 =
          ((clock 0 - (jsGetDay (clock 0) tz - n + 7) % 7 * msPerDay + tz * 60000) /
            msPerDay - 14) * msPerDay + (eh * 3600000 + em * 60000) := by
        rw [msPerDay]; ring
      rw [he1, msPerDay, ediv_mul_add_eq _ _ _ (by norm_num) hem0 hem1]
      rw [show (86400000 : Int) = msPerDay from rfl]
      ring
  · refine ⟨(clock 0 - (jsGetDay (clock 0) tz - n + 7) % 7 * msPerDay + tz * 60000) / msPerDay,
      ?_, ?_⟩
    · congr 1
      ring
    · rw [jsSubDays_some, jsSetHours_some]
      congr 1
      have he1 : (clock 0 - (jsGetDay (clock 0) tz - n + 7) % 7 * msPerDay + tz * 60000) /
          msPerDay * msPerDay + eh * 3600000 + em * 60000 - tz * 60000 - 7 * msPerDay +
          tz * 60000 =
          ((clock 0 - (jsGetDay (clock 0) tz - n + 7) % 7 * msPerDay + tz * 60000) /
            msPerDay - 7) * msPerDay + (eh * 3600000 + em * 60000) := by
        rw [msPerDay]; ring
      rw [he1, msPerDay, ediv_mul_add_eq _ _ _ (by norm_num) hem0 hem1]
      rw [show (86400000 : Int) = msPerDay from rfl]
      ring

/-- C6: for every recurring window with equal (valid) start and end day
names whose end time-of-day is strictly earlier than its start
time-of-day, the resolver spans a full week (day offset 7): `until` minus
`since` is exactly 7 days minus the start/end time-of-day difference, so
it is strictly greater than 6 days and at most 8 days — for every clock
reading and timezone offset. -/
theorem week_spanning_rule (clock : Nat → Int) (tz : Int)
    (startDay startTime endDay endTime : String) (n sh sm eh em : Int)
    (hsd : isDatePattern startDay = false) (hed : isDatePattern endDay = false)
    (hs : dayMap (jsToLower startDay) = some n) (he : dayMap (jsToLower endDay) = some n)
    (hst : parseTime startTime = (some sh, some sm))
    (het : parseTime endTime = (some eh, some em))
    (hsh0 : 0 ≤ sh) (hsh : sh < 24) (hsm0 : 0 ≤ sm) (hsm : sm < 60)
    (heh0 : 0 ≤ eh) (heh : eh < 24) (hem0 : 0 ≤ em) (hem : em < 60)
    (hlex : eh < sh ∨ (eh = sh ∧ em < sm)) :
    ∃ v, jsSub (winUntil (getLastTimeWindow clock tz startDay startTime endDay endTime))
        (winSince (getLastTimeWindow clock tz startDay startTime endDay endTime)) = some v ∧
      v = 7 * 86400000 - ((sh * 3600000 + sm * 60000) - (eh * 3600000 + em * 60000)) ∧
      6 * 86400000 < v ∧ v ≤ 8 * 86400000 := by
  have hemb0 : (0 : Int) ≤ eh * 3600000 + em * 60000 := by omega
  have hemb1 : eh * 3600000 + em * 60000 < 86400000 := by omega
  have hlexB : (jsLtB (some eh) (some sh) ||
      (jsEqB (some eh) (some sh) && jsLtB (some em) (some sm))) = true := by
    rcases hlex with h | ⟨h1, h2⟩
    · simp [jsLtB, h]
    · simp [jsLtB, jsEqB, h1, h2]
  obtain ⟨Q, hu, hsi⟩ := dayNames_week_spanning clock tz startDay startTime endDay endTime
    n sh sm eh em hs he hst het hemb0 hemb1 hlexB
  have hcall : getLastTimeWindow clock tz startDay startTime endDay endTime =
      .ok (getTimeWindowFromDayNames clock tz startDay startTime endDay endTime) := by
    simp [getLastTimeWindow, hsd, hed]
  refine ⟨7 * 86400000 - ((sh * 3600000 + sm * 60000) - (eh * 3600000 + em * 60000)),
    ?_, rfl, by omega, by omega⟩
  rw [hcall]
  simp only [winUntil, winSince]
  rw [hu, hsi, jsSub_some]
  congr 1
  rw [msPerDay]
  ring

/-- Witness for C6 at Monday 11:00 to Monday 09:00, clock reading 0,
offset 0: the window is 7 days minus 2 hours. -/
theorem week_spanning_rule_witness :
    isDatePattern "Monday" = false ∧ dayMap (jsToLower "Monday") = some 1 ∧
    parseTime "11:00" = (some 11, some 0) ∧ parseTime "09:00" = (some 9, some 0) ∧
    (∃ v, jsSub (winUntil (getLastTimeWindow (fun _ => 0) 0 "Monday" "11:00" "Monday" "09:00"))
        (winSince (getLastTimeWindow (fun _ => 0) 0 "Monday" "11:00" "Monday" "09:00")) =
          some v ∧
      v = 7 * 86400000 - ((11 * 3600000 + 0 * 60000) - (9 * 3600000 + 0 * 60000)) ∧
      6 * 86400000 < v ∧ v ≤ 8 * 86400000) :=
  ⟨by decide, by decide, by decide, by decide,
    week_spanning_rule (fun _ => 0) 0 "Monday" "11:00" "Monday" "09:00" 1 11 0 9 0
      (by decide) (by decide) (by decide) (by decide) (by decide) (by decide)
      (by decide) (by decide) (by decide) (by decide) (by decide) (by decide)
      (by decide) (by decide) (Or.inl (by decide))⟩

end CommitAudit
